import Mathlib

/-!
Shallow embedding of the kleague-ignobel statistics pipeline
(preprocess, zone binning, aggregation, clearance-panic correlation,
second-half drop, metrics, ranking) and proofs about it.

Sources embedded:
- src/src/preprocess.py (preprocess_events)
- src/src/config.py (CARD_SET, FOUL_TYPES, DEF_ACTIONS)
- src/open_track2/src/feature_engineering.py (add_zone_columns)
- src/kleague_ignobel/src/aggregate.py (aggregate_player_stats,
  calculate_clearance_panic, calculate_second_half_drop, attack ratio guard)
- src/kleague_ignobel_old/src/awards_engine.py (calculate_metrics,
  compute_award_scores)

Modelling conventions: a pandas DataFrame is a list of row records; machine
floats are modelled by Rat (every quantity in the pipeline stays rational);
a column that pandas would omit from an output frame is modelled by an
Option-valued cell that is `none` on every row.  Row order of grouped or
merged outputs is immaterial to every statement proved below, so group keys
are enumerated in first-occurrence order rather than pandas' sorted order.
-/

namespace KIgnobel

/-- One raw event row.  Fields are exactly the columns the embedded pipeline
functions read. -/
structure Event where
  game_id : Nat
  period_id : Nat
  time_seconds : ℚ
  action_id : Nat
  player_id : Nat
  player_name_ko : String
  team_id : Nat
  team_name_ko : String
  type_name : String
  result_name : String
  start_x : ℚ
  start_y : ℚ
  deriving DecidableEq

/-- An event row together with the derived boolean columns that
`preprocess_events` assigns.  Raw input rows carry arbitrary junk in the
derived fields; `preprocess_events` overwrites them, exactly as pandas
column assignment does. -/
structure PEvent extends Event where
  is_success : Bool
  is_fail : Bool
  is_card : Bool
  in_def_third : Bool
  deriving DecidableEq

/-! Configuration constants from src/src/config.py and
src/kleague_ignobel_old/src/config.py (identical lists). -/

def CARD_SET : List String := ["Yellow_Card", "Second_Yellow_Card", "Direct_Red_Card"]

def FOUL_TYPES : List String := ["Foul", "Handball_Foul", "Hit"]

def DEF_ACTIONS : List String :=
  ["Tackle", "Duel", "Foul", "Interception", "Block", "Clearance",
   "Intervention", "Error", "Aerial Clearance"]

/-! ### Preprocessor (src/src/preprocess.py) -/

/-- Sort key of `df.sort_values(["game_id", "period_id", "time_seconds",
"action_id"])`: lexicographic on the four columns. -/
def sortKey (e : PEvent) : Lex (Nat × Lex (Nat × Lex (ℚ × Nat))) :=
  toLex (e.game_id, toLex (e.period_id, toLex (e.time_seconds, e.action_id)))

def rowLe (a b : PEvent) : Prop := sortKey a ≤ sortKey b

instance : DecidableRel rowLe := fun a b =>
  inferInstanceAs (Decidable (sortKey a ≤ sortKey b))

instance : IsTotal PEvent rowLe := ⟨fun a b => le_total (sortKey a) (sortKey b)⟩

instance : IsTrans PEvent rowLe := ⟨fun _ _ _ h₁ h₂ => le_trans h₁ h₂⟩

/-- The derived-column assignments of `preprocess_events`: is_success,
is_fail, is_card, in_def_third, each computed from original fields only. -/
def setFlags (e : PEvent) : PEvent :=
  { e with
    is_success := e.result_name == "Successful"
    is_fail := e.result_name == "Unsuccessful"
    is_card := CARD_SET.contains e.result_name
    in_def_third := decide (e.start_x ≤ 35) }

/-- `preprocess_events`: sort by (game_id, period_id, time_seconds,
action_id) — pandas multi-column sort_values is the stable lexsort — then
assign the derived columns. -/
def preprocess_events (df : List PEvent) : List PEvent :=
  (List.insertionSort rowLe df).map setFlags

/-! ### Zone binner (src/open_track2/src/feature_engineering.py,
add_zone_columns) -/

def x_bins : List ℚ := [0, 26.25, 52.5, 78.75, 105]

def x_labels : List String := ["D", "DM", "AM", "A"]

def y_bins : List ℚ := [0, 22.67, 45.33, 68]

def y_labels : List String := ["L", "C", "R"]

/-- `pd.cut(v, bins, labels, include_lowest=True, right=False)` for a single
value: the bins are the half-open intervals [bins i, bins (i+1)) and a value
in none of them (in particular a value equal to the very last edge) yields
NaN.  `include_lowest` is a no-op when `right=False` because every interval
is already left-inclusive. -/
def cut : List ℚ → List String → ℚ → Option String
  | lo :: hi :: bs, lab :: labs, v =>
    if lo ≤ v ∧ v < hi then some lab else cut (hi :: bs) labs v
  | _, _, _ => none

/-- The zone_x column: the `.astype(str)` in the source turns pandas NaN
into the literal string "nan". -/
def zone_x (x : ℚ) : String := (cut x_bins x_labels x).getD "nan"

def zone_y (y : ℚ) : String := (cut y_bins y_labels y).getD "nan"

def zone (x y : ℚ) : String := zone_x x ++ "-" ++ zone_y y

/-- An event row with the three columns added by `add_zone_columns`. -/
structure ZonedEvent extends Event where
  zone_x : String
  zone_y : String
  zone : String
  deriving DecidableEq

/-- `add_zone_columns` with the default bins, reading `start_x`/`start_y`. -/
def add_zone_columns (df : List Event) : List ZonedEvent :=
  df.map fun e =>
    { toEvent := e
      zone_x := zone_x e.start_x
      zone_y := zone_y e.start_y
      zone := zone e.start_x e.start_y }

/-! ### Aggregator (src/kleague_ignobel/src/aggregate.py,
aggregate_player_stats) -/

/-- The player identity key every groupby and merge in the aggregator uses:
(player_id, player_name_ko, team_name_ko). -/
def pKey (e : PEvent) : Nat × String × String :=
  (e.player_id, e.player_name_ko, e.team_name_ko)

def tackleRows (df : List PEvent) : List PEvent :=
  df.filter fun e => e.type_name == "Tackle"

def duelRows (df : List PEvent) : List PEvent :=
  df.filter fun e => e.type_name == "Duel"

def foulRows (df : List PEvent) : List PEvent :=
  df.filter fun e => FOUL_TYPES.contains e.type_name

def clearanceRows (df : List PEvent) : List PEvent :=
  df.filter fun e => ["Clearance", "Aerial Clearance"].contains e.type_name

def blockRows (df : List PEvent) : List PEvent :=
  df.filter fun e => e.type_name == "Block"

def interceptionRows (df : List PEvent) : List PEvent :=
  df.filter fun e => e.type_name == "Interception"

def cardRows (df : List PEvent) : List PEvent :=
  df.filter fun e => e.is_card

def defActionRows (df : List PEvent) : List PEvent :=
  df.filter fun e => DEF_ACTIONS.contains e.type_name

/-- Row count of a category group for one player key
(`agg(... = ("action_id", "count"))`). -/
def countKey (rows : List PEvent) (k : Nat × String × String) : ℚ :=
  rows.countP fun e => decide (pKey e = k)

/-- Sum of `is_fail` over a category group for one player key. -/
def countFailKey (rows : List PEvent) (k : Nat × String × String) : ℚ :=
  rows.countP fun e => decide (pKey e = k) && e.is_fail

/-- Sum of `in_def_third` over a category group for one player key. -/
def countDefThirdKey (rows : List PEvent) (k : Nat × String × String) : ℚ :=
  rows.countP fun e => decide (pKey e = k) && e.in_def_third

/-- One output cell of the merged aggregate table.  A category with no rows
league-wide is skipped by the `if len(...) > 0` guards, so its columns are
absent from the outer-joined frame (`none` on every row); a category with
rows contributes the per-key count, where a key absent from the category
becomes NaN under the outer join and then 0 under `fillna(0)` — which is
exactly the count of its (zero) matching rows. -/
def cell (rows : List PEvent) (v : ℚ) : Option ℚ :=
  if rows = [] then none else some v

/-- Union of the player keys of all non-empty category tables: the key set
of the fold of outer merges, in first-occurrence order. -/
def aggKeys (df : List PEvent) : List (Nat × String × String) :=
  ((tackleRows df ++ duelRows df ++ foulRows df ++ clearanceRows df ++
    blockRows df ++ interceptionRows df ++ cardRows df ++
    defActionRows df).map pKey).dedup

/-- One row of the final per-player statistics table.  The count columns are
those of `aggregate_player_stats`; the rate columns are added later by
`calculate_metrics` and start out absent. -/
structure StatsRow where
  player_id : Nat
  player_name_ko : String
  team_name_ko : String
  tackle_attempt : Option ℚ := none
  tackle_fail : Option ℚ := none
  duel_attempt : Option ℚ := none
  duel_fail : Option ℚ := none
  foul_count : Option ℚ := none
  danger_foul_count : Option ℚ := none
  clearance_attempt : Option ℚ := none
  block_attempt : Option ℚ := none
  block_fail : Option ℚ := none
  interception_attempt : Option ℚ := none
  interception_fail : Option ℚ := none
  card_count : Option ℚ := none
  def_actions : Option ℚ := none
  tackle_fail_rate : Option ℚ := none
  card_per_def : Option ℚ := none
  danger_foul_ratio : Option ℚ := none
  block_fail_rate : Option ℚ := none
  interception_fail_rate : Option ℚ := none
  duel_fail_rate : Option ℚ := none
  clearance : Option ℚ := none
  concede_shot10 : Option ℚ := none
  clearance_panic_rate : Option ℚ := none
  deriving DecidableEq, Inhabited

def StatsRow.key (r : StatsRow) : Nat × String × String :=
  (r.player_id, r.player_name_ko, r.team_name_ko)

/-- The merged aggregate row of one player key. -/
def aggRow (df : List PEvent) (k : Nat × String × String) : StatsRow :=
  { player_id := k.1
    player_name_ko := k.2.1
    team_name_ko := k.2.2
    tackle_attempt := cell (tackleRows df) (countKey (tackleRows df) k)
    tackle_fail := cell (tackleRows df) (countFailKey (tackleRows df) k)
    duel_attempt := cell (duelRows df) (countKey (duelRows df) k)
    duel_fail := cell (duelRows df) (countFailKey (duelRows df) k)
    foul_count := cell (foulRows df) (countKey (foulRows df) k)
    danger_foul_count := cell (foulRows df) (countDefThirdKey (foulRows df) k)
    clearance_attempt := cell (clearanceRows df) (countKey (clearanceRows df) k)
    block_attempt := cell (blockRows df) (countKey (blockRows df) k)
    block_fail := cell (blockRows df) (countFailKey (blockRows df) k)
    interception_attempt := cell (interceptionRows df) (countKey (interceptionRows df) k)
    interception_fail := cell (interceptionRows df) (countFailKey (interceptionRows df) k)
    card_count := cell (cardRows df) (countKey (cardRows df) k)
    def_actions := cell (defActionRows df) (countKey (defActionRows df) k) }

/-- `aggregate_player_stats`: per-category groupby counts, outer-joined on
the identity key triple, numeric NaNs filled with 0.  Each category's
groupby yields one row per key, so the chain of outer merges on the full
key produces exactly one row per key in the union; the trailing
ffill/bfill of the text columns is the identity here because the text
columns are part of the join key and hence never null. -/
def aggregate_player_stats (df : List PEvent) : List StatsRow :=
  (aggKeys df).map (aggRow df)

/-- Decides whether an event belongs to at least one of the eight category
tables that feed the outer merge. -/
def inAnyCategory (e : PEvent) : Bool :=
  e.type_name == "Tackle" || e.type_name == "Duel" ||
  FOUL_TYPES.contains e.type_name ||
  ["Clearance", "Aerial Clearance"].contains e.type_name ||
  e.type_name == "Block" || e.type_name == "Interception" ||
  e.is_card || DEF_ACTIONS.contains e.type_name

/-! ### Temporal correlator (src/kleague_ignobel/src/aggregate.py,
calculate_clearance_panic) -/

def shotRows (df : List PEvent) : List PEvent :=
  df.filter fun e => e.type_name == "Shot"

/-- Whether a shot is eligible to be the forward as-of match of a
clearance: same (game_id, period_id) group — the source restricts
`shots_group` to the clearance's group before joining — and at or after
the clearance time (`allow_exact_matches=True`). -/
def qualShot (c s : PEvent) : Prop :=
  s.game_id = c.game_id ∧ s.period_id = c.period_id ∧
  c.time_seconds ≤ s.time_seconds

instance (c s : PEvent) : Decidable (qualShot c s) :=
  inferInstanceAs (Decidable (_ ∧ _ ∧ _))

/-- One fold step of the forward match: keep the eligible shot of least
time seen so far. -/
def asofStep (c : PEvent) (acc : Option PEvent) (s : PEvent) : Option PEvent :=
  if qualShot c s then
    match acc with
    | none => some s
    | some b => if s.time_seconds < b.time_seconds then some s else acc
  else acc

/-- The shot `pd.merge_asof(clr_group, shots_group, on="time_seconds",
direction="forward", allow_exact_matches=True)` pairs with one clearance:
the earliest shot of the same (game_id, period_id) group whose time is at
or after the clearance time, `none` when the group has no such shot. -/
def matchedShot (shots : List PEvent) (c : PEvent) : Option PEvent :=
  shots.foldl (asofStep c) none

/-- One row of the as-of-joined frame `m`: a clearance together with its
matched shot (rows with no match carry NaN in every `_shot` column and are
removed by the `dropna` in the source, so only matched rows are kept). -/
structure MergedRow where
  clr : PEvent
  shot : PEvent
  deriving DecidableEq

/-- The source computes `m["time_diff"] = m[time_col_shot] - m[time_col_clr]`,
but `pd.merge_asof(..., on="time_seconds")` emits the join column exactly
once, unsuffixed, so neither "time_seconds_clr" nor "time_seconds_shot"
exists and both fallbacks resolve to the single shared "time_seconds"
column: the computed difference is identically 0. -/
def time_diff (m : MergedRow) : ℚ :=
  m.clr.time_seconds - m.clr.time_seconds

/-- `m["shot_within_10s"] = (time_diff <= 10) & (time_diff >= 0) &
(team_id_shot != team_id_clr)`. -/
def shot_within_10s (m : MergedRow) : Bool :=
  decide (time_diff m ≤ 10) && decide (0 ≤ time_diff m) &&
  decide (m.shot.team_id ≠ m.clr.team_id)

/-- The concatenation of the per-(game, period) as-of joins after their
`dropna`: every clearance paired with its matched shot, clearances with no
matched shot dropped.  Periods with no shots (`continue` in the source) and
the empty-input early returns are subsumed: they contribute no matched
rows. -/
def mergedRows (df : List PEvent) : List MergedRow :=
  (clearanceRows df).filterMap fun c =>
    (matchedShot (shotRows df) c).map fun s => ⟨c, s⟩

/-- One row of the clearance-panic output table. -/
structure ScoreRow where
  player_id : Nat
  player_name_ko : String
  team_name_ko : String
  clearance : ℚ
  concede_shot10 : ℚ
  deriving DecidableEq

def ScoreRow.key (r : ScoreRow) : Nat × String × String :=
  (r.player_id, r.player_name_ko, r.team_name_ko)

/-- `calculate_clearance_panic`: group the matched rows by the clearing
player's identity key; clearance = row count, concede_shot10 = sum of
shot_within_10s. -/
def calculate_clearance_panic (df : List PEvent) : List ScoreRow :=
  let m := mergedRows df
  ((m.map fun x => pKey x.clr).dedup).map fun k =>
    { player_id := k.1
      player_name_ko := k.2.1
      team_name_ko := k.2.2
      clearance := (m.countP fun x => decide (pKey x.clr = k) : ℚ)
      concede_shot10 :=
        (m.countP fun x => decide (pKey x.clr = k) && shot_within_10s x : ℚ) }

/-! ### Second-half drop (src/kleague_ignobel/src/aggregate.py,
calculate_second_half_drop) -/

/-- `is_def_fail = (result_name == "Unsuccessful") | (type_name == "Error")`. -/
def is_def_fail (e : PEvent) : Bool :=
  e.result_name == "Unsuccessful" || e.type_name == "Error"

/-- The distinct period_id values among the defensive actions: the columns
of the pivot table. -/
def periodsOf (df : List PEvent) : List Nat :=
  ((defActionRows df).map fun e => e.period_id).dedup

/-- The defensive actions of one player key in one period: one cell group of
the (player, period) groupby. -/
def perRows (df : List PEvent) (k : Nat × String × String) (per : Nat) : List PEvent :=
  (defActionRows df).filter fun e => decide (pKey e = k) && decide (e.period_id = per)

/-- The pivoted fail rate of one player key in one period: def_fails /
def_actions for a (player, period) group that exists — the groupby only
creates groups with at least one row, so the quotient's denominator is
never 0 there — and the pivot's `fill_value=0` for a missing group. -/
def failRate (df : List PEvent) (k : Nat × String × String) (per : Nat) : ℚ :=
  if perRows df k per = [] then 0
  else ((perRows df k per).countP is_def_fail : ℚ) / ((perRows df k per).length : ℚ)

/-- One row of the second-half-drop output table. -/
structure DropRow where
  player_id : Nat
  player_name_ko : String
  team_name_ko : String
  first_half_rate : ℚ
  second_half_rate : ℚ
  second_half_drop : ℚ
  total_actions : ℚ
  deriving DecidableEq

def DropRow.key (r : DropRow) : Nat × String × String :=
  (r.player_id, r.player_name_ko, r.team_name_ko)

/-- One player row of the pivoted second-half-drop table. -/
def dropRow (df : List PEvent) (k : Nat × String × String) : DropRow :=
  { player_id := k.1
    player_name_ko := k.2.1
    team_name_ko := k.2.2
    first_half_rate := failRate df k 1
    second_half_rate := failRate df k 2
    second_half_drop := failRate df k 2 - failRate df k 1
    total_actions := ((defActionRows df).countP fun e => decide (pKey e = k) : ℚ) }

/-- `calculate_second_half_drop`: empty output when there are no defensive
actions, or when the pivot's columns do not contain both period 1 and
period 2 (`len(period_cols) == 2` fails and the final `return
pd.DataFrame()` runs); otherwise one row per player key of the defensive
actions, with first/second half rates from the zero-filled pivot. -/
def calculate_second_half_drop (df : List PEvent) : List DropRow :=
  if defActionRows df = [] then []
  else if 1 ∈ periodsOf df ∧ 2 ∈ periodsOf df then
    (((defActionRows df).map pKey).dedup).map (dropRow df)
  else []

/-! ### Metrics engine (src/kleague_ignobel_old/src/awards_engine.py,
calculate_metrics; src/kleague_ignobel/src/aggregate.py,
aggregate_attack_stats) -/

/-- The per-row effect of the six `np.where(denominator > 0, numerator /
denominator, 0)` assignments in `calculate_metrics`.  Each rate column is
created only when both of its input columns exist in the frame (the
table-level `if ... in stats.columns` guards; column presence is uniform
across rows, so the row-level match is equivalent). -/
def metricRow (r : StatsRow) : StatsRow :=
  { r with
    tackle_fail_rate :=
      match r.tackle_attempt, r.tackle_fail with
      | some a, some f => some (if 0 < a then f / a else 0)
      | _, _ => none
    card_per_def :=
      match r.card_count, r.def_actions with
      | some c, some d => some (if 0 < d then c / d else 0)
      | _, _ => none
    danger_foul_ratio :=
      match r.foul_count, r.danger_foul_count with
      | some fc, some dc => some (if 0 < fc then dc / fc else 0)
      | _, _ => none
    block_fail_rate :=
      match r.block_attempt, r.block_fail with
      | some a, some f => some (if 0 < a then f / a else 0)
      | _, _ => none
    interception_fail_rate :=
      match r.interception_attempt, r.interception_fail with
      | some a, some f => some (if 0 < a then f / a else 0)
      | _, _ => none
    duel_fail_rate :=
      match r.duel_attempt, r.duel_fail with
      | some a, some f => some (if 0 < a then f / a else 0)
      | _, _ => none }

/-- The clearance-panic merge of `calculate_metrics`: a left merge on
player_id alone, then `np.where(clearance > 0, concede_shot10 / clearance,
0)` — a NaN clearance compares False against 0, so an unmatched player gets
rate 0 — then `fillna(0)` on the two merged count columns. -/
def mergePanicRow (panic : List ScoreRow) (r : StatsRow) : StatsRow :=
  match panic.find? fun p => p.player_id == r.player_id with
  | some p =>
    { r with
      clearance := some p.clearance
      concede_shot10 := some p.concede_shot10
      clearance_panic_rate :=
        some (if 0 < p.clearance then p.concede_shot10 / p.clearance else 0) }
  | none =>
    { r with
      clearance := some 0
      concede_shot10 := some 0
      clearance_panic_rate := some 0 }

/-- `calculate_metrics` restricted to the inputs the claims exercise: the
six ratio columns, and the clearance-panic merge when a non-empty panic
table is supplied (`if clearance_panic is not None and len(...) > 0`). -/
def calculate_metrics (player_stats : List StatsRow) (clearance_panic : List ScoreRow) :
    List StatsRow :=
  if clearance_panic = [] then player_stats.map metricRow
  else player_stats.map fun r => mergePanicRow clearance_panic (metricRow r)

/-- The `receive_to_give_ratio` assignment of `aggregate_attack_stats`:
`np.where(pass_given > 0, pass_received / pass_given, 0)`. -/
def receive_to_give_ratio (pass_received pass_given : ℚ) : ℚ :=
  if 0 < pass_given then pass_received / pass_given else 0

/-! ### Ranking engine (src/kleague_ignobel_old/src/awards_engine.py,
compute_award_scores) -/

/-- An award configuration: id, metric column name, minimum-attempts
threshold. -/
structure Award where
  id : String
  metric : String
  min_attempts : ℚ

/-- One row of the long-format award scores table. -/
structure AwardScoreRow where
  award_id : String
  player_id : Nat
  player_name_ko : String
  team_name_ko : String
  score : ℚ
  rank : Nat
  percentile : ℚ
  deriving DecidableEq

/-- Column access `stats[name]` for the columns the award engine reads.
Names that the embedded StatsRow does not carry behave as absent columns. -/
def colVal (r : StatsRow) : String → Option ℚ
  | "tackle_attempt" => r.tackle_attempt
  | "tackle_fail" => r.tackle_fail
  | "duel_attempt" => r.duel_attempt
  | "duel_fail" => r.duel_fail
  | "foul_count" => r.foul_count
  | "danger_foul_count" => r.danger_foul_count
  | "clearance_attempt" => r.clearance_attempt
  | "block_attempt" => r.block_attempt
  | "block_fail" => r.block_fail
  | "interception_attempt" => r.interception_attempt
  | "interception_fail" => r.interception_fail
  | "card_count" => r.card_count
  | "def_actions" => r.def_actions
  | "tackle_fail_rate" => r.tackle_fail_rate
  | "card_per_def" => r.card_per_def
  | "danger_foul_ratio" => r.danger_foul_ratio
  | "block_fail_rate" => r.block_fail_rate
  | "interception_fail_rate" => r.interception_fail_rate
  | "duel_fail_rate" => r.duel_fail_rate
  | "clearance" => r.clearance
  | "concede_shot10" => r.concede_shot10
  | "clearance_panic_rate" => r.clearance_panic_rate
  | _ => none

/-- `name in stats.columns`: column presence is uniform across rows in the
frames the pipeline builds, so it is `isSome` on every row. -/
def colPresent (stats : List StatsRow) (c : String) : Bool :=
  stats.all fun r => (colVal r c).isSome

/-- The `attempt_cols` dictionary of `compute_award_scores`, in full. -/
def attempt_cols : String → Option String
  | "tackle_fail_rate" => some "tackle_attempt"
  | "block_fail_rate" => some "block_attempt"
  | "interception_fail_rate" => some "interception_attempt"
  | "duel_fail_rate" => some "duel_attempt"
  | "clearance_panic_rate" => some "clearance"
  | "card_per_def" => some "def_actions"
  | "danger_foul_ratio" => some "foul_count"
  | "def_third_turnover_rate" => some "def_third_attempts"
  | "second_half_drop" => some "def_actions"
  | "off_target_per_game" => some "total_shots"
  | "penalty_box_miss_per_game" => some "penalty_box_shots"
  | "offside_per_game" => some "offsides"
  | "receive_to_give_ratio" => some "pass_received"
  | "cross_fail_per_game" => some "total_crosses"
  | "duel_fail_per_game_attack" => some "total_duels_attack"
  | "aerial_fail_per_game" => some "aerial_fail"
  | _ => none

/-- `stats[attempt_col] >= min_attempts` on one row; a NaN cell compares
False in pandas. -/
def passesFilter (minAtt : ℚ) (c : String) (r : StatsRow) : Bool :=
  match colVal r c with
  | some v => decide (minAtt ≤ v)
  | none => false

/-- The population an award ranks: rows with `attempt_col >= min_attempts`
when the metric has a configured attempt column that is present in the
frame, the whole frame otherwise. -/
def awardFiltered (stats : List StatsRow) (aw : Award) : List StatsRow :=
  match attempt_cols aw.metric with
  | some ac =>
    if colPresent stats ac then stats.filter (passesFilter aw.min_attempts ac)
    else stats
  | none => stats

/-- One output row: score = metric value with NaN filled as 0; rank =
`scores.rank(ascending=False, method="min")`, whose value at s is 1 plus
the number of strictly greater scores; percentile = `scores.rank(pct=True)
* 100` with the default method="average", whose ascending rank at s is the
mean of the positions the tied block of s occupies, i.e. (count of scores
below s) + (count of scores equal to s + 1) / 2, divided by the population
size for pct. -/
def mkAwardRow (aw : Award) (scores : List ℚ) (r : StatsRow) : AwardScoreRow :=
  let s := (colVal r aw.metric).getD 0
  { award_id := aw.id
    player_id := r.player_id
    player_name_ko := r.player_name_ko
    team_name_ko := r.team_name_ko
    score := s
    rank := 1 + scores.countP fun t => decide (s < t)
    percentile :=
      100 * (((scores.countP fun t => decide (t < s) : ℚ) +
        ((scores.countP fun t => decide (t = s) : ℚ) + 1) / 2) /
        (scores.length : ℚ)) }

/-- `scores = filtered[metric].fillna(0)`: the score series the ranking is
computed over. -/
def awardScores (stats : List StatsRow) (aw : Award) : List ℚ :=
  (awardFiltered stats aw).map fun r => (colVal r aw.metric).getD 0

/-- The rows one award contributes: nothing when its metric column is
absent (`continue`), else the filtered population scored and ranked.  An
empty filtered population contributes an empty map, matching the
`len(filtered) == 0: continue` path. -/
def awardRows (stats : List StatsRow) (aw : Award) : List AwardScoreRow :=
  if colPresent stats aw.metric then
    (awardFiltered stats aw).map (mkAwardRow aw (awardScores stats aw))
  else []

/-- `compute_award_scores`: concatenation over the configured awards. -/
def compute_award_scores (stats : List StatsRow) (awards : List Award) :
    List AwardScoreRow :=
  awards.flatMap (awardRows stats)

/-! ### Concrete test inputs used by the theorems below -/

/-- Builds an already-preprocessed event row: the four derived flags hold
exactly the values `preprocess_events` assigns from the original fields. -/
def mkE (game per : Nat) (t : ℚ) (aid pid : Nat) (pname : String) (tid : Nat)
    (tname ty res : String) (x : ℚ) : PEvent :=
  { game_id := game
    period_id := per
    time_seconds := t
    action_id := aid
    player_id := pid
    player_name_ko := pname
    team_id := tid
    team_name_ko := tname
    type_name := ty
    result_name := res
    start_x := x
    start_y := 0
    is_success := res == "Successful"
    is_fail := res == "Unsuccessful"
    is_card := CARD_SET.contains res
    in_def_third := decide (x ≤ 35) }

/-- A two-player event set: player 1 has one tackle, player 2 has one duel,
so the duel category exists league-wide while player 1 never triggered
it. -/
def twoCatDf : List PEvent :=
  [mkE 1 1 10 1 1 "a" 100 "t" "Tackle" "Successful" 50,
   mkE 1 1 20 2 2 "b" 200 "u" "Duel" "Unsuccessful" 50]

/-- A one-player event set in which the player's first clearance (t = 10)
has a later shot in its period (t = 12) while the second clearance
(t = 100) comes after the period's last shot. -/
def strictDf : List PEvent :=
  [mkE 1 1 10 1 1 "a" 100 "t" "Clearance" "Successful" 50,
   mkE 1 1 100 2 1 "a" 100 "t" "Clearance" "Successful" 50,
   mkE 1 1 12 3 2 "b" 200 "u" "Shot" "On Target" 80]

/-- The spec's own test vector: a clearance by team 100 at t = 10 and an
opposing (team 200) shot at t = 21 — 11 seconds later — in the same game
and period. -/
def elevenSecDf : List PEvent :=
  [mkE 1 1 10 1 1 "a" 100 "t" "Clearance" "Successful" 50,
   mkE 1 1 21 2 2 "b" 200 "u" "Shot" "On Target" 80]

/-- A two-player event set with defensive actions in both halves: player 1
fails one tackle in period 1 and is inactive in period 2. -/
def twoPeriodDf : List PEvent :=
  [mkE 1 1 10 1 1 "a" 100 "t" "Tackle" "Unsuccessful" 50,
   mkE 1 2 10 2 2 "b" 200 "u" "Duel" "Successful" 50]

/-- A concrete player row whose every denominator column holds 0. -/
def zeroDenRow : StatsRow :=
  { player_id := 7
    player_name_ko := "p"
    team_name_ko := "t"
    tackle_attempt := some 0
    tackle_fail := some 0
    duel_attempt := some 0
    duel_fail := some 0
    foul_count := some 0
    danger_foul_count := some 0
    block_attempt := some 0
    block_fail := some 0
    interception_attempt := some 0
    interception_fail := some 0
    card_count := some 0
    def_actions := some 0 }

/-- A three-player population with a tied score: players 1 and 2 both have
tackle_fail_rate 1/2, player 3 has 1. -/
def tieStats : List StatsRow :=
  [{ player_id := 1
     player_name_ko := "a"
     team_name_ko := "t"
     tackle_attempt := some 5
     tackle_fail_rate := some (1/2) },
   { player_id := 2
     player_name_ko := "b"
     team_name_ko := "t"
     tackle_attempt := some 5
     tackle_fail_rate := some (1/2) },
   { player_id := 3
     player_name_ko := "c"
     team_name_ko := "u"
     tackle_attempt := some 5
     tackle_fail_rate := some 1 }]

def tieAward : Award :=
  { id := "tackle_fail", metric := "tackle_fail_rate", min_attempts := 0 }

/-- The award-score row of the first player of the tied population. -/
def tieTopRow : AwardScoreRow :=
  mkAwardRow tieAward (awardScores tieStats tieAward) tieStats.headI

/-- The spec's end-to-end scenario: player 1 ("x") makes 5 tackles of which
2 fail, player 2 ("y") makes only 3 tackles, player 3 ("z") makes 5
successful tackles. -/
def fiveTackleDf : List PEvent :=
  [mkE 1 1 1 1 1 "x" 100 "t" "Tackle" "Unsuccessful" 50,
   mkE 1 1 2 2 1 "x" 100 "t" "Tackle" "Unsuccessful" 50,
   mkE 1 1 3 3 1 "x" 100 "t" "Tackle" "Successful" 50,
   mkE 1 1 4 4 1 "x" 100 "t" "Tackle" "Successful" 50,
   mkE 1 1 5 5 1 "x" 100 "t" "Tackle" "Successful" 50,
   mkE 1 1 6 6 2 "y" 100 "t" "Tackle" "Successful" 50,
   mkE 1 1 7 7 2 "y" 100 "t" "Tackle" "Successful" 50,
   mkE 1 1 8 8 2 "y" 100 "t" "Tackle" "Successful" 50,
   mkE 1 1 9 9 3 "z" 200 "u" "Tackle" "Successful" 50,
   mkE 1 1 10 10 3 "z" 200 "u" "Tackle" "Successful" 50,
   mkE 1 1 11 11 3 "z" 200 "u" "Tackle" "Successful" 50,
   mkE 1 1 12 12 3 "z" 200 "u" "Tackle" "Successful" 50,
   mkE 1 1 13 13 3 "z" 200 "u" "Tackle" "Successful" 50]

def tackleStats : List StatsRow :=
  calculate_metrics (aggregate_player_stats fiveTackleDf) []

/-- The tackle-fail award as configured: metric tackle_fail_rate with
min_attempts 5 filtering on tackle_attempt. -/
def tackleAward : Award :=
  { id := "tackle_fail", metric := "tackle_fail_rate", min_attempts := 5 }

/-! ### Shared helper lemmas -/

lemma setFlags_toEvent (e : PEvent) : (setFlags e).toEvent = e.toEvent := rfl

lemma setFlags_idem (e : PEvent) : setFlags (setFlags e) = setFlags e := rfl

lemma sortKey_setFlags (e : PEvent) : sortKey (setFlags e) = sortKey e := rfl

/-- In a list without duplicates, an element that occurs is counted exactly
once. -/
lemma countP_eq_one_of_nodup {α : Type} [DecidableEq α] :
    ∀ {l : List α} {a : α}, l.Nodup → a ∈ l →
      l.countP (fun x => decide (x = a)) = 1 := by
  intro l
  induction l with
  | nil => intro a _ h; cases h
  | cons b l ih =>
    intro a hnd hmem
    rcases List.nodup_cons.mp hnd with ⟨hb, hl⟩
    rcases List.mem_cons.mp hmem with h | h
    · subst h
      rw [List.countP_cons_of_pos _ _ (by simp), List.countP_eq_zero.mpr]
      intro x hx
      simp only [decide_eq_true_eq]
      intro hxa
      exact hb (hxa ▸ hx)
    · have hba : ¬ (b = a) := fun hba => hb (hba ▸ h)
      rw [List.countP_cons_of_neg _ _ (by simpa), ih hl h]

/-! ### C8: preprocessing is idempotent and row-preserving -/

/-- C8: applying `preprocess_events` twice yields the same table — in
particular the same is_success, is_fail, is_card and in_def_third values —
as applying it once, and the output rows are a permutation of the input
rows (projected to the original columns): nothing is dropped or
deduplicated by either application. -/
theorem preprocess_events_idempotent (df : List PEvent) :
    preprocess_events (preprocess_events df) = preprocess_events df ∧
    ((preprocess_events df).map PEvent.toEvent).Perm (df.map PEvent.toEvent) := by
  constructor
  · have hsorted : List.Sorted rowLe (List.insertionSort rowLe df) :=
      List.sorted_insertionSort rowLe df
    have hsorted' : List.Sorted rowLe ((List.insertionSort rowLe df).map setFlags) :=
      List.Pairwise.map setFlags (fun a b h => h) hsorted
    have hcomp : setFlags ∘ setFlags = setFlags := funext setFlags_idem
    unfold preprocess_events
    rw [List.Sorted.insertionSort_eq hsorted', List.map_map, hcomp]
  · have hmap : (fun e => (setFlags e).toEvent) = PEvent.toEvent :=
      funext setFlags_toEvent
    unfold preprocess_events
    rw [List.map_map]
    show List.Perm ((List.insertionSort rowLe df).map fun e => (setFlags e).toEvent) _
    rw [hmap]
    exact (List.perm_insertionSort rowLe df).map PEvent.toEvent

/- Batteries seals the rational arithmetic operations as irreducible; open
them up so that concrete pipeline runs can be settled by kernel
evaluation. -/
attribute [local semireducible] Rat.add Rat.mul Rat.sub Rat.inv Rat.ofScientific

/-! ### C2: zone binning -/

lemma zone_x_ite (x : ℚ) :
    zone_x x =
      if 0 ≤ x ∧ x < 26.25 then "D"
      else if 26.25 ≤ x ∧ x < 52.5 then "DM"
      else if 52.5 ≤ x ∧ x < 78.75 then "AM"
      else if 78.75 ≤ x ∧ x < 105 then "A"
      else "nan" := by
  unfold zone_x x_bins x_labels
  simp only [cut]
  split_ifs <;> rfl

lemma zone_y_ite (y : ℚ) :
    zone_y y =
      if 0 ≤ y ∧ y < 22.67 then "L"
      else if 22.67 ≤ y ∧ y < 45.33 then "C"
      else if 45.33 ≤ y ∧ y < 68 then "R"
      else "nan" := by
  unfold zone_y y_bins y_labels
  simp only [cut]
  split_ifs <;> rfl

lemma zone_x_class (x : ℚ) (h0 : 0 ≤ x) (h1 : x < 105) :
    (x < 26.25 ∧ zone_x x = "D") ∨
    (26.25 ≤ x ∧ x < 52.5 ∧ zone_x x = "DM") ∨
    (52.5 ≤ x ∧ x < 78.75 ∧ zone_x x = "AM") ∨
    (78.75 ≤ x ∧ zone_x x = "A") := by
  rw [zone_x_ite]
  rcases lt_or_le x 26.25 with h | h
  · exact Or.inl ⟨h, by rw [if_pos ⟨h0, h⟩]⟩
  · have n1 : ¬ (0 ≤ x ∧ x < 26.25) := fun hc => absurd hc.2 (not_lt.mpr h)
    rcases lt_or_le x 52.5 with h2 | h2
    · exact Or.inr (Or.inl ⟨h, h2, by rw [if_neg n1, if_pos ⟨h, h2⟩]⟩)
    · have n2 : ¬ (26.25 ≤ x ∧ x < 52.5) := fun hc => absurd hc.2 (not_lt.mpr h2)
      rcases lt_or_le x 78.75 with h3 | h3
      · exact Or.inr (Or.inr (Or.inl ⟨h2, h3,
          by rw [if_neg n1, if_neg n2, if_pos ⟨h2, h3⟩]⟩))
      · have n3 : ¬ (52.5 ≤ x ∧ x < 78.75) := fun hc => absurd hc.2 (not_lt.mpr h3)
        exact Or.inr (Or.inr (Or.inr ⟨h3,
          by rw [if_neg n1, if_neg n2, if_neg n3, if_pos ⟨h3, h1⟩]⟩))

lemma zone_y_class (y : ℚ) (h0 : 0 ≤ y) (h1 : y < 68) :
    (y < 22.67 ∧ zone_y y = "L") ∨
    (22.67 ≤ y ∧ y < 45.33 ∧ zone_y y = "C") ∨
    (45.33 ≤ y ∧ zone_y y = "R") := by
  rw [zone_y_ite]
  rcases lt_or_le y 22.67 with h | h
  · exact Or.inl ⟨h, by rw [if_pos ⟨h0, h⟩]⟩
  · have n1 : ¬ (0 ≤ y ∧ y < 22.67) := fun hc => absurd hc.2 (not_lt.mpr h)
    rcases lt_or_le y 45.33 with h2 | h2
    · exact Or.inr (Or.inl ⟨h, h2, by rw [if_neg n1, if_pos ⟨h, h2⟩]⟩)
    · have n2 : ¬ (22.67 ≤ y ∧ y < 45.33) := fun hc => absurd hc.2 (not_lt.mpr h2)
      exact Or.inr (Or.inr ⟨h2, by rw [if_neg n1, if_neg n2, if_pos ⟨h2, h1⟩]⟩)

/-- C2 counterexample: the claim asserts totality on the closed box
[0,105]×[0,68], but at the in-range coordinate x = 105 the half-open
binning of `pd.cut(..., right=False)` matches no interval and
`add_zone_columns` emits the string "nan", which is none of the defined
band labels. -/
theorem add_zone_columns_not_total_on_closed_box :
    (add_zone_columns
        [⟨1, 1, 0, 1, 1, "p", 1, "t", "Pass", "Successful", 105, 0⟩]).map
        ZonedEvent.zone_x = ["nan"] ∧
    "nan" ∉ x_labels ∧ ((0 : ℚ) ≤ 105 ∧ (105 : ℚ) ≤ 105) := by decide

/-- C2 (amended): zone binning is a total function on the half-open box
[0,105)×[0,68): every such coordinate receives exactly one of the 12
defined zone labels, the bands partition the coordinate ranges with no gap
or overlap — each band label is assigned exactly on its half-open interval
— and the boundary value x = 26.25 is assigned to band "DM", not "D". -/
theorem add_zone_columns_total_on_halfopen_box (x y : ℚ)
    (hx0 : 0 ≤ x) (hx1 : x < 105) (hy0 : 0 ≤ y) (hy1 : y < 68) :
    (zone_x x ∈ x_labels ∧ zone_y y ∈ y_labels ∧
      zone x y ∈ x_labels.flatMap fun a => y_labels.map fun b => a ++ "-" ++ b) ∧
    ((zone_x x = "D" ↔ x < 26.25) ∧
     (zone_x x = "DM" ↔ 26.25 ≤ x ∧ x < 52.5) ∧
     (zone_x x = "AM" ↔ 52.5 ≤ x ∧ x < 78.75) ∧
     (zone_x x = "A" ↔ 78.75 ≤ x)) ∧
    ((zone_y y = "L" ↔ y < 22.67) ∧
     (zone_y y = "C" ↔ 22.67 ≤ y ∧ y < 45.33) ∧
     (zone_y y = "R" ↔ 45.33 ≤ y)) ∧
    zone_x 26.25 = "DM" := by
  have hxc := zone_x_class x hx0 hx1
  have hyc := zone_y_class y hy0 hy1
  have hxm : zone_x x ∈ x_labels := by
    rcases hxc with ⟨_, h⟩ | ⟨_, _, h⟩ | ⟨_, _, h⟩ | ⟨_, h⟩ <;> rw [h] <;> decide
  have hym : zone_y y ∈ y_labels := by
    rcases hyc with ⟨_, h⟩ | ⟨_, _, h⟩ | ⟨_, h⟩ <;> rw [h] <;> decide
  refine ⟨⟨hxm, hym,
    List.mem_flatMap.mpr ⟨zone_x x, hxm, List.mem_map.mpr ⟨zone_y y, hym, rfl⟩⟩⟩,
    ⟨⟨?_, ?_⟩, ⟨?_, ?_⟩, ⟨?_, ?_⟩, ⟨?_, ?_⟩⟩, ⟨⟨?_, ?_⟩, ⟨?_, ?_⟩, ⟨?_, ?_⟩⟩, by decide⟩
  · intro hD
    rcases hxc with ⟨hr, _⟩ | ⟨_, _, h⟩ | ⟨_, _, h⟩ | ⟨_, h⟩
    · exact hr
    all_goals rw [h] at hD; exact absurd hD (by decide)
  · intro hr
    rcases hxc with ⟨_, h⟩ | ⟨ha, _, _⟩ | ⟨ha, _, _⟩ | ⟨ha, _⟩
    · exact h
    all_goals linarith
  · intro hD
    rcases hxc with ⟨_, h⟩ | ⟨ha, hb, _⟩ | ⟨_, _, h⟩ | ⟨_, h⟩
    · rw [h] at hD; exact absurd hD (by decide)
    · exact ⟨ha, hb⟩
    all_goals rw [h] at hD; exact absurd hD (by decide)
  · rintro ⟨ha, hb⟩
    rcases hxc with ⟨hr, _⟩ | ⟨_, _, h⟩ | ⟨hc, _, _⟩ | ⟨hc, _⟩
    · linarith
    · exact h
    all_goals linarith
  · intro hD
    rcases hxc with ⟨_, h⟩ | ⟨_, _, h⟩ | ⟨ha, hb, _⟩ | ⟨_, h⟩
    · rw [h] at hD; exact absurd hD (by decide)
    · rw [h] at hD; exact absurd hD (by decide)
    · exact ⟨ha, hb⟩
    · rw [h] at hD; exact absurd hD (by decide)
  · rintro ⟨ha, hb⟩
    rcases hxc with ⟨hr, _⟩ | ⟨_, hc, _⟩ | ⟨_, _, h⟩ | ⟨hc, _⟩
    · linarith
    · linarith
    · exact h
    · linarith
  · intro hD
    rcases hxc with ⟨_, h⟩ | ⟨_, _, h⟩ | ⟨_, _, h⟩ | ⟨ha, _⟩
    · rw [h] at hD; exact absurd hD (by decide)
    · rw [h] at hD; exact absurd hD (by decide)
    · rw [h] at hD; exact absurd hD (by decide)
    · exact ha
  · intro ha
    rcases hxc with ⟨hr, _⟩ | ⟨_, hc, _⟩ | ⟨_, hc, _⟩ | ⟨_, h⟩
    · linarith
    · linarith
    · linarith
    · exact h
  · intro hL
    rcases hyc with ⟨hr, _⟩ | ⟨_, _, h⟩ | ⟨_, h⟩
    · exact hr
    all_goals rw [h] at hL; exact absurd hL (by decide)
  · intro hr
    rcases hyc with ⟨_, h⟩ | ⟨ha, _, _⟩ | ⟨ha, _⟩
    · exact h
    all_goals linarith
  · intro hC
    rcases hyc with ⟨_, h⟩ | ⟨ha, hb, _⟩ | ⟨_, h⟩
    · rw [h] at hC; exact absurd hC (by decide)
    · exact ⟨ha, hb⟩
    · rw [h] at hC; exact absurd hC (by decide)
  · rintro ⟨ha, hb⟩
    rcases hyc with ⟨hr, _⟩ | ⟨_, _, h⟩ | ⟨hc, _⟩
    · linarith
    · exact h
    · linarith
  · intro hR
    rcases hyc with ⟨_, h⟩ | ⟨_, _, h⟩ | ⟨ha, _⟩
    · rw [h] at hR; exact absurd hR (by decide)
    · rw [h] at hR; exact absurd hR (by decide)
    · exact ha
  · intro ha
    rcases hyc with ⟨hr, _⟩ | ⟨_, hc, _⟩ | ⟨_, h⟩
    · linarith
    · linarith
    · exact h

/-- C2 witness: the amended theorem applied at the concrete in-range
coordinate (26.25, 0). -/
theorem add_zone_columns_total_on_halfopen_box_w :
    zone_x 26.25 ∈ x_labels ∧ zone_y 0 ∈ y_labels ∧
      zone 26.25 0 ∈ x_labels.flatMap fun a => y_labels.map fun b => a ++ "-" ++ b :=
  (add_zone_columns_total_on_halfopen_box 26.25 0 (by norm_num) (by norm_num)
    (by norm_num) (by norm_num)).1

/-! ### C4: zero-guarded ratio metrics -/

/-- C4: for every configured ratio metric, a zero denominator yields the
metric value exactly 0: the six `np.where(denominator > 0, ..., 0)` rates
of `calculate_metrics`, the clearance-panic rate after the merge (both for
a merged row whose clearance count is 0 and for an unmatched player whose
NaN clearance compares False against 0), and the `receive_to_give_ratio`
guard of `aggregate_attack_stats`. -/
theorem metrics_zero_guard (r : StatsRow) (panic : List ScoreRow) (f pr pg : ℚ) :
    (r.tackle_attempt = some 0 → r.tackle_fail = some f →
      (metricRow r).tackle_fail_rate = some 0) ∧
    (r.def_actions = some 0 → r.card_count = some f →
      (metricRow r).card_per_def = some 0) ∧
    (r.foul_count = some 0 → r.danger_foul_count = some f →
      (metricRow r).danger_foul_ratio = some 0) ∧
    (r.block_attempt = some 0 → r.block_fail = some f →
      (metricRow r).block_fail_rate = some 0) ∧
    (r.interception_attempt = some 0 → r.interception_fail = some f →
      (metricRow r).interception_fail_rate = some 0) ∧
    (r.duel_attempt = some 0 → r.duel_fail = some f →
      (metricRow r).duel_fail_rate = some 0) ∧
    ((mergePanicRow panic r).clearance = some 0 →
      (mergePanicRow panic r).clearance_panic_rate = some 0) ∧
    (pg = 0 → receive_to_give_ratio pr pg = 0) := by
  refine ⟨?_, ?_, ?_, ?_, ?_, ?_, ?_, ?_⟩
  · intro ha hf; simp [metricRow, ha, hf]
  · intro ha hf; simp [metricRow, ha, hf]
  · intro ha hf; simp [metricRow, ha, hf]
  · intro ha hf; simp [metricRow, ha, hf]
  · intro ha hf; simp [metricRow, ha, hf]
  · intro ha hf; simp [metricRow, ha, hf]
  · intro hc
    cases hp : panic.find? fun p => p.player_id == r.player_id with
    | none => simp [mergePanicRow, hp]
    | some p =>
      simp only [mergePanicRow, hp, Option.some.injEq] at hc ⊢
      simp [hc]
  · intro hg; simp [receive_to_give_ratio, hg]

/-- C4 witness: the guard evaluated on a concrete player row whose every
denominator is 0, with an empty clearance-panic table and zero passes
given. -/
theorem metrics_zero_guard_w :
    (metricRow zeroDenRow).tackle_fail_rate = some 0 ∧
    (metricRow zeroDenRow).card_per_def = some 0 ∧
    (metricRow zeroDenRow).danger_foul_ratio = some 0 ∧
    (metricRow zeroDenRow).block_fail_rate = some 0 ∧
    (metricRow zeroDenRow).interception_fail_rate = some 0 ∧
    (metricRow zeroDenRow).duel_fail_rate = some 0 ∧
    (mergePanicRow [] zeroDenRow).clearance_panic_rate = some 0 ∧
    receive_to_give_ratio 3 0 = 0 := by
  obtain ⟨h1, h2, h3, h4, h5, h6, h7, h8⟩ := metrics_zero_guard zeroDenRow [] 0 3 0
  exact ⟨h1 rfl rfl, h2 rfl rfl, h3 rfl rfl, h4 rfl rfl, h5 rfl rfl, h6 rfl rfl,
    h7 (by decide), h8 rfl⟩

/-! ### C3: one aggregate row per player, untriggered categories zero -/

lemma aggRow_key (df : List PEvent) (k : Nat × String × String) :
    (aggRow df k).key = k := by
  obtain ⟨a, b, c⟩ := k
  rfl

lemma countKey_eq_zero {rows : List PEvent} {k : Nat × String × String}
    (h : ∀ e ∈ rows, pKey e ≠ k) : countKey rows k = 0 := by
  unfold countKey
  rw [List.countP_eq_zero.mpr]
  · simp
  · intro e he
    simpa using h e he

lemma countFailKey_eq_zero {rows : List PEvent} {k : Nat × String × String}
    (h : ∀ e ∈ rows, pKey e ≠ k) : countFailKey rows k = 0 := by
  unfold countFailKey
  rw [List.countP_eq_zero.mpr]
  · simp
  · intro e he
    simp [h e he]

lemma countDefThirdKey_eq_zero {rows : List PEvent} {k : Nat × String × String}
    (h : ∀ e ∈ rows, pKey e ≠ k) : countDefThirdKey rows k = 0 := by
  unfold countDefThirdKey
  rw [List.countP_eq_zero.mpr]
  · simp
  · intro e he
    simp [h e he]

/-- C3: a player key that occurs in at least one aggregation category has
exactly one row in the aggregate table, and on that row every count column
of a category the player never triggered — but which has rows league-wide,
so that its columns exist — holds the value 0, never a missing value. -/
theorem aggregate_player_stats_one_row_zero_filled (df : List PEvent)
    (k : Nat × String × String)
    (hk : ∃ e ∈ df, pKey e = k ∧ inAnyCategory e = true) :
    ((aggregate_player_stats df).countP fun r => decide (r.key = k)) = 1 ∧
    ∀ r ∈ aggregate_player_stats df, r.key = k →
      (tackleRows df ≠ [] → (∀ e ∈ tackleRows df, pKey e ≠ k) →
        r.tackle_attempt = some 0 ∧ r.tackle_fail = some 0) ∧
      (duelRows df ≠ [] → (∀ e ∈ duelRows df, pKey e ≠ k) →
        r.duel_attempt = some 0 ∧ r.duel_fail = some 0) ∧
      (foulRows df ≠ [] → (∀ e ∈ foulRows df, pKey e ≠ k) →
        r.foul_count = some 0 ∧ r.danger_foul_count = some 0) ∧
      (clearanceRows df ≠ [] → (∀ e ∈ clearanceRows df, pKey e ≠ k) →
        r.clearance_attempt = some 0) ∧
      (blockRows df ≠ [] → (∀ e ∈ blockRows df, pKey e ≠ k) →
        r.block_attempt = some 0 ∧ r.block_fail = some 0) ∧
      (interceptionRows df ≠ [] → (∀ e ∈ interceptionRows df, pKey e ≠ k) →
        r.interception_attempt = some 0 ∧ r.interception_fail = some 0) ∧
      (cardRows df ≠ [] → (∀ e ∈ cardRows df, pKey e ≠ k) →
        r.card_count = some 0) ∧
      (defActionRows df ≠ [] → (∀ e ∈ defActionRows df, pKey e ≠ k) →
        r.def_actions = some 0) := by
  obtain ⟨e, he, hkey, hcat⟩ := hk
  have hmem : e ∈ tackleRows df ++ duelRows df ++ foulRows df ++ clearanceRows df ++
      blockRows df ++ interceptionRows df ++ cardRows df ++ defActionRows df := by
    simp only [inAnyCategory, Bool.or_eq_true] at hcat
    simp only [List.mem_append, tackleRows, duelRows, foulRows, clearanceRows,
      blockRows, interceptionRows, cardRows, defActionRows, List.mem_filter]
    tauto
  have hkmem : k ∈ aggKeys df :=
    List.mem_dedup.mpr (List.mem_map.mpr ⟨e, hmem, hkey⟩)
  constructor
  · unfold aggregate_player_stats
    rw [List.countP_map]
    have hcong : ∀ x ∈ aggKeys df,
        ((fun r => decide (r.key = k)) ∘ aggRow df) x = true ↔
        (fun k' => decide (k' = k)) x = true := by
      intro x _
      simp [aggRow_key]
    rw [List.countP_congr hcong]
    exact countP_eq_one_of_nodup (List.nodup_dedup _) hkmem
  · intro r hr hrk
    obtain ⟨k', _, hk'⟩ := List.mem_map.mp hr
    have : k' = k := by rw [← aggRow_key df k', hk', hrk]
    subst this
    subst hk'
    refine ⟨?_, ?_, ?_, ?_, ?_, ?_, ?_, ?_⟩
    · intro hne hnot
      exact ⟨by simp [aggRow, cell, hne, countKey_eq_zero hnot],
        by simp [aggRow, cell, hne, countFailKey_eq_zero hnot]⟩
    · intro hne hnot
      exact ⟨by simp [aggRow, cell, hne, countKey_eq_zero hnot],
        by simp [aggRow, cell, hne, countFailKey_eq_zero hnot]⟩
    · intro hne hnot
      exact ⟨by simp [aggRow, cell, hne, countKey_eq_zero hnot],
        by simp [aggRow, cell, hne, countDefThirdKey_eq_zero hnot]⟩
    · intro hne hnot
      simp [aggRow, cell, hne, countKey_eq_zero hnot]
    · intro hne hnot
      exact ⟨by simp [aggRow, cell, hne, countKey_eq_zero hnot],
        by simp [aggRow, cell, hne, countFailKey_eq_zero hnot]⟩
    · intro hne hnot
      exact ⟨by simp [aggRow, cell, hne, countKey_eq_zero hnot],
        by simp [aggRow, cell, hne, countFailKey_eq_zero hnot]⟩
    · intro hne hnot
      simp [aggRow, cell, hne, countKey_eq_zero hnot]
    · intro hne hnot
      simp [aggRow, cell, hne, countKey_eq_zero hnot]

/-- C3 witness: on the concrete two-player event set, player 1 has exactly
one aggregate row and its never-triggered duel columns are zero-filled. -/
theorem aggregate_player_stats_one_row_zero_filled_w :
    ((aggregate_player_stats twoCatDf).countP
      fun r => decide (r.key = (1, "a", "t"))) = 1 ∧
    (aggRow twoCatDf (1, "a", "t")).duel_attempt = some 0 := by
  have h := aggregate_player_stats_one_row_zero_filled twoCatDf (1, "a", "t")
    ⟨mkE 1 1 10 1 1 "a" 100 "t" "Tackle" "Successful" 50, by decide⟩
  refine ⟨h.1, ?_⟩
  exact ((h.2 (aggRow twoCatDf (1, "a", "t")) (by decide) (by decide)).2.1
    (by decide) (by decide)).1

/-! ### C1 and C10: clearance-panic temporal correlation -/

lemma asofStep_isSome (c : PEvent) (acc : Option PEvent) (s : PEvent) :
    (asofStep c acc s).isSome = (acc.isSome || decide (qualShot c s)) := by
  unfold asofStep
  split_ifs with h
  · cases acc with
    | none => simp [h]
    | some b =>
      dsimp only
      split_ifs <;> simp [h]
  · simp [h]

lemma matchedShot_isSome (shots : List PEvent) (c : PEvent) :
    (matchedShot shots c).isSome =
    (shots.any fun s => decide (qualShot c s)) := by
  suffices h : ∀ (l : List PEvent) (acc : Option PEvent),
      (l.foldl (asofStep c) acc).isSome =
      (acc.isSome || l.any fun s => decide (qualShot c s)) by
    simpa [matchedShot] using h shots none
  intro l
  induction l with
  | nil => intro acc; simp
  | cons s l ih =>
    intro acc
    rw [List.foldl_cons, List.any_cons, ih, asofStep_isSome, Bool.or_assoc]

lemma countP_mergedRows (df : List PEvent) (p : PEvent → Bool) :
    (mergedRows df).countP (fun x => p x.clr) =
    (clearanceRows df).countP
      fun c => (matchedShot (shotRows df) c).isSome && p c := by
  unfold mergedRows
  generalize shotRows df = shots
  induction clearanceRows df with
  | nil => rfl
  | cons c l ih =>
    rw [List.filterMap_cons]
    cases hm : matchedShot shots c with
    | none => simp [List.countP_cons, hm, ih]
    | some s => simp [List.countP_cons, hm, ih]

/-- C10: the clearance-panic table's per-player `clearance` count includes
exactly the clearances that have at least one shot at or after the
clearance time in the same (game_id, period_id) — a clearance after the
last shot of its period, or in a period with no shots, is excluded — and
on a concrete event set this denominator (1) is strictly smaller than the
same player's `clearance_attempt` (2) from the main aggregator. -/
theorem clearance_panic_count_requires_subsequent_shot :
    (∀ (df : List PEvent) (r : ScoreRow), r ∈ calculate_clearance_panic df →
      r.clearance = ((clearanceRows df).countP fun c =>
        decide (pKey c = r.key) &&
        (shotRows df).any fun s => decide (qualShot c s) : ℚ)) ∧
    (calculate_clearance_panic strictDf).map (fun r => r.clearance) = [1] ∧
    (aggregate_player_stats strictDf).map (fun r => r.clearance_attempt) =
      [some 2] ∧
    (1 : ℚ) < 2 := by
  refine ⟨?_, by decide, by decide, by norm_num⟩
  intro df r hr
  unfold calculate_clearance_panic at hr
  obtain ⟨k, _, hmk⟩ := List.mem_map.mp hr
  obtain ⟨a, b, c⟩ := k
  subst hmk
  have hkey : (ScoreRow.key
      { player_id := a, player_name_ko := b, team_name_ko := c,
        clearance := ((mergedRows df).countP fun x => decide (pKey x.clr = (a, b, c)) : ℚ),
        concede_shot10 := ((mergedRows df).countP
          fun x => decide (pKey x.clr = (a, b, c)) && shot_within_10s x : ℚ) }) =
      (a, b, c) := rfl
  rw [hkey]
  show ((mergedRows df).countP fun x => decide (pKey x.clr = (a, b, c)) : ℚ) = _
  rw [countP_mergedRows df fun e => decide (pKey e = (a, b, c))]
  congr 1
  apply List.countP_congr
  intro e _
  rw [matchedShot_isSome, Bool.and_comm]

/-- C10 witness: the characterization applied to the concrete event set and
its output row. -/
theorem clearance_panic_count_requires_subsequent_shot_w :
    (⟨1, "a", "t", 1, 1⟩ : ScoreRow).clearance =
      ((clearanceRows strictDf).countP fun c =>
        decide (pKey c = (⟨1, "a", "t", 1, 1⟩ : ScoreRow).key) &&
        (shotRows strictDf).any fun s => decide (qualShot c s) : ℚ) :=
  clearance_panic_count_requires_subsequent_shot.1 strictDf
    ⟨1, "a", "t", 1, 1⟩ (by decide)

/-- C1 (code bug): on the spec's test vector the claim requires the
11-seconds-later opposing shot not to be counted as conceded, but the code
counts it: `pd.merge_asof(..., on="time_seconds")` keeps a single
time_seconds column, both suffix fallbacks resolve to it, the computed
time_diff is identically 0, and the 10-second window never excludes
anything.  The true elapsed time of the matched pair is 11 > 10, yet
shot_within_10s evaluates to true and concede_shot10 = 1. -/
theorem clearance_panic_ignores_time_window :
    (calculate_clearance_panic elevenSecDf).map
      (fun r => (r.player_id, r.clearance, r.concede_shot10)) = [(1, 1, 1)] ∧
    matchedShot (shotRows elevenSecDf)
        (mkE 1 1 10 1 1 "a" 100 "t" "Clearance" "Successful" 50) =
      some (mkE 1 1 21 2 2 "b" 200 "u" "Shot" "On Target" 80) ∧
    (mkE 1 1 21 2 2 "b" 200 "u" "Shot" "On Target" 80).time_seconds -
      (mkE 1 1 10 1 1 "a" 100 "t" "Clearance" "Successful" 50).time_seconds = 11 ∧
    ¬ ((11 : ℚ) ≤ 10) ∧
    shot_within_10s
      ⟨mkE 1 1 10 1 1 "a" 100 "t" "Clearance" "Successful" 50,
       mkE 1 1 21 2 2 "b" 200 "u" "Shot" "On Target" 80⟩ = true := by decide

/-! ### C9: second-half drop -/

/-- C9 counterexample: an event table that contains a defensive action —
but only in period 1 league-wide — for which the claim promises the player
a row with second-half rate 0 and drop = second − first, while the code's
`len(period_cols) == 2` check fails and it returns an empty table. -/
theorem second_half_drop_empty_when_one_period :
    defActionRows [mkE 1 1 10 1 1 "a" 100 "t" "Tackle" "Unsuccessful" 50] ≠ [] ∧
    calculate_second_half_drop
      [mkE 1 1 10 1 1 "a" 100 "t" "Tackle" "Unsuccessful" 50] = [] := by decide

lemma dropRow_key (df : List PEvent) (k : Nat × String × String) :
    (dropRow df k).key = k := by
  obtain ⟨a, b, c⟩ := k
  rfl

/-- C9 (amended): provided defensive actions occur in both period 1 and
period 2 somewhere in the input — otherwise the function returns an empty
table — every player key with defensive actions gets exactly one row, whose
per-period fail rate is fails/attempts over that player's (player, period)
group, is 0 for a half the player was not active in, and whose
second_half_drop is the second-half rate minus the first-half rate. -/
theorem second_half_drop_characterization (df : List PEvent)
    (k : Nat × String × String)
    (h1 : 1 ∈ periodsOf df) (h2 : 2 ∈ periodsOf df)
    (hk : k ∈ ((defActionRows df).map pKey).dedup) :
    ((calculate_second_half_drop df).countP fun r => decide (r.key = k)) = 1 ∧
    ∀ r ∈ calculate_second_half_drop df, r.key = k →
      r.second_half_drop = r.second_half_rate - r.first_half_rate ∧
      (perRows df k 1 = [] → r.first_half_rate = 0) ∧
      (perRows df k 1 ≠ [] → r.first_half_rate =
        ((perRows df k 1).countP is_def_fail : ℚ) / ((perRows df k 1).length : ℚ)) ∧
      (perRows df k 2 = [] → r.second_half_rate = 0) ∧
      (perRows df k 2 ≠ [] → r.second_half_rate =
        ((perRows df k 2).countP is_def_fail : ℚ) / ((perRows df k 2).length : ℚ)) := by
  have hda : defActionRows df ≠ [] := by
    intro h
    rw [periodsOf, h] at h1
    simp at h1
  have hrows : calculate_second_half_drop df =
      (((defActionRows df).map pKey).dedup).map (dropRow df) := by
    unfold calculate_second_half_drop
    rw [if_neg hda, if_pos ⟨h1, h2⟩]
  constructor
  · rw [hrows, List.countP_map]
    have hcong : ∀ x ∈ ((defActionRows df).map pKey).dedup,
        ((fun r => decide (DropRow.key r = k)) ∘ dropRow df) x = true ↔
        (fun k' => decide (k' = k)) x = true := by
      intro x _
      simp [dropRow_key]
    rw [List.countP_congr hcong]
    exact countP_eq_one_of_nodup (List.nodup_dedup _) hk
  · intro r hr hrk
    rw [hrows] at hr
    obtain ⟨k', _, hk'⟩ := List.mem_map.mp hr
    have : k' = k := by rw [← dropRow_key df k', hk', hrk]
    subst this
    subst hk'
    refine ⟨rfl, ?_, ?_, ?_, ?_⟩
    · intro h
      simp [dropRow, failRate, h]
    · intro h
      simp [dropRow, failRate, h]
    · intro h
      simp [dropRow, failRate, h]
    · intro h
      simp [dropRow, failRate, h]

/-- C9 witness: the amended characterization applied to the concrete
two-period event set; the half player 1 missed contributes rate 0 and the
drop is the rate difference. -/
theorem second_half_drop_characterization_w :
    ((calculate_second_half_drop twoPeriodDf).countP
      fun r => decide (r.key = (1, "a", "t"))) = 1 ∧
    (dropRow twoPeriodDf (1, "a", "t")).second_half_rate = 0 ∧
    (dropRow twoPeriodDf (1, "a", "t")).second_half_drop =
      (dropRow twoPeriodDf (1, "a", "t")).second_half_rate -
      (dropRow twoPeriodDf (1, "a", "t")).first_half_rate := by
  have h := second_half_drop_characterization twoPeriodDf (1, "a", "t")
    (by decide) (by decide) (by decide)
  have h2 := h.2 (dropRow twoPeriodDf (1, "a", "t")) (by decide) (by decide)
  exact ⟨h.1, h2.2.2.2.1 (by decide), h2.1⟩

/-! ### C5 and C6: ranking and percentiles -/

lemma awardRows_eq {stats : List StatsRow} {aw : Award}
    (h : colPresent stats aw.metric = true) :
    awardRows stats aw =
    (awardFiltered stats aw).map (mkAwardRow aw (awardScores stats aw)) := by
  unfold awardRows
  rw [if_pos h]

lemma mem_awardRows {stats : List StatsRow} {aw : Award} {r : AwardScoreRow}
    (hr : r ∈ awardRows stats aw) :
    colPresent stats aw.metric = true ∧
    ∃ x ∈ awardFiltered stats aw, r = mkAwardRow aw (awardScores stats aw) x := by
  by_cases h : colPresent stats aw.metric = true
  · rw [awardRows_eq h] at hr
    obtain ⟨x, hx, hmk⟩ := List.mem_map.mp hr
    exact ⟨h, x, hx, hmk.symm⟩
  · unfold awardRows at hr
    rw [if_neg h] at hr
    cases hr

lemma map_score_awardRows {stats : List StatsRow} {aw : Award}
    (h : colPresent stats aw.metric = true) :
    (awardRows stats aw).map AwardScoreRow.score = awardScores stats aw := by
  rw [awardRows_eq h, List.map_map]
  rfl

lemma countP_awardRows_score {stats : List StatsRow} {aw : Award}
    (h : colPresent stats aw.metric = true) (p : ℚ → Bool) :
    ((awardRows stats aw).countP fun q => p q.score) =
    (awardScores stats aw).countP p := by
  rw [← map_score_awardRows h, List.countP_map]
  rfl

lemma length_awardRows {stats : List StatsRow} {aw : Award}
    (h : colPresent stats aw.metric = true) :
    (awardRows stats aw).length = (awardScores stats aw).length := by
  rw [← map_score_awardRows h, List.length_map]

/-- Two pointwise incompatible predicates count at most the whole list
between them. -/
lemma countP_disjoint_le_length {α : Type} (L : List α) (p q : α → Bool)
    (h : ∀ t, ¬ (p t = true ∧ q t = true)) :
    L.countP p + L.countP q ≤ L.length := by
  induction L with
  | nil => simp
  | cons t L ih =>
    simp only [List.countP_cons, List.length_cons]
    by_cases h1 : p t = true
    · have h2 : ¬ q t = true := fun h2 => h t ⟨h1, h2⟩
      simp [h1, h2]
      omega
    · simp [h1]
      split_ifs <;> omega

/-- Splitting a half-open count at a point: counting ≤ s is counting < s
plus counting = s. -/
lemma countP_le_split (L : List ℚ) (s : ℚ) :
    (L.countP fun t => decide (t ≤ s)) =
    (L.countP fun t => decide (t < s)) + (L.countP fun t => decide (t = s)) := by
  induction L with
  | nil => rfl
  | cons t L ih =>
    simp only [List.countP_cons, ih]
    rcases lt_trichotomy t s with h | h | h
    · simp [h, h.le, h.ne]
      omega
    · subst h
      simp
      omega
    · simp [h.ne', not_lt.mpr h.le, not_le.mpr h]

/-- C6: for every award population, every assigned rank lies in {1..N},
ranks are non-increasing in score with ties sharing the same (minimum,
competition) rank — rank = 1 + the number of strictly greater scores —
rank 1 is held exactly by the rows of maximal score, and every reported
percentile lies in [0, 100]. -/
theorem award_rank_into_range_and_percentile_bounds (stats : List StatsRow)
    (aw : Award) (r r' : AwardScoreRow) (hr : r ∈ awardRows stats aw)
    (hr' : r' ∈ awardRows stats aw) :
    (1 ≤ r.rank ∧ r.rank ≤ (awardRows stats aw).length) ∧
    (r'.score ≤ r.score → r.rank ≤ r'.rank) ∧
    (r.score = r'.score → r.rank = r'.rank) ∧
    (r.rank = 1 + ((awardRows stats aw).countP fun q => decide (r.score < q.score))) ∧
    (r.rank = 1 ↔ ∀ q ∈ awardRows stats aw, q.score ≤ r.score) ∧
    (0 ≤ r.percentile ∧ r.percentile ≤ 100) := by
  obtain ⟨hcol, x, hx, hrx⟩ := mem_awardRows hr
  obtain ⟨_, x', hx', hrx'⟩ := mem_awardRows hr'
  have hrscore : r.score = (colVal x aw.metric).getD 0 := by rw [hrx]; rfl
  have hrrank : r.rank = 1 + ((awardScores stats aw).countP
      fun t => decide ((colVal x aw.metric).getD 0 < t)) := by rw [hrx]; rfl
  have hrpct : r.percentile = 100 *
      ((((awardScores stats aw).countP
          fun t => decide (t < (colVal x aw.metric).getD 0) : ℚ) +
        (((awardScores stats aw).countP
          fun t => decide (t = (colVal x aw.metric).getD 0) : ℚ) + 1) / 2) /
        ((awardScores stats aw).length : ℚ)) := by rw [hrx]; rfl
  have hr'score : r'.score = (colVal x' aw.metric).getD 0 := by rw [hrx']; rfl
  have hr'rank : r'.rank = 1 + ((awardScores stats aw).countP
      fun t => decide ((colVal x' aw.metric).getD 0 < t)) := by rw [hrx']; rfl
  have hsmem : r.score ∈ awardScores stats aw := by
    rw [hrscore]
    exact List.mem_map.mpr ⟨x, hx, rfl⟩
  have hone : 1 ≤ (awardScores stats aw).countP fun t => decide (t = r.score) :=
    List.countP_pos_iff.mpr ⟨r.score, hsmem, by simp⟩
  refine ⟨⟨by omega, ?_⟩, ?_, ?_, ?_, ?_, ?_⟩
  · rw [length_awardRows hcol, hrrank, ← hrscore]
    have hd := countP_disjoint_le_length (awardScores stats aw)
      (fun t => decide (r.score < t)) (fun t => decide (t = r.score))
      (by
        intro t ⟨h1, h2⟩
        simp only [decide_eq_true_eq] at h1 h2
        exact absurd (h2 ▸ h1) (lt_irrefl r.score))
    omega
  · intro hle
    rw [hrrank, hr'rank]
    rw [← hrscore, ← hr'score] at *
    have := List.countP_mono_left (l := awardScores stats aw)
      (p := fun t => decide (r.score < t)) (q := fun t => decide (r'.score < t))
      (by
        intro t _ h
        simp only [decide_eq_true_eq] at h ⊢
        exact lt_of_le_of_lt hle h)
    omega
  · intro heq
    rw [hrrank, hr'rank, ← hrscore, ← hr'score, heq]
  · rw [hrrank, ← hrscore,
      countP_awardRows_score hcol fun t => decide (r.score < t)]
  · constructor
    · intro h1
      have hz : ((awardScores stats aw).countP
          fun t => decide (r.score < t)) = 0 := by
        rw [hrrank, ← hrscore] at h1
        omega
      intro q hq
      have hqs : q.score ∈ awardScores stats aw := by
        rw [← map_score_awardRows hcol]
        exact List.mem_map.mpr ⟨q, hq, rfl⟩
      have := List.countP_eq_zero.mp hz q.score hqs
      simpa using this
    · intro hall
      rw [hrrank, ← hrscore]
      have hz : ((awardScores stats aw).countP
          fun t => decide (r.score < t)) = 0 := by
        apply List.countP_eq_zero.mpr
        intro t ht
        rw [← map_score_awardRows hcol] at ht
        obtain ⟨q, hq, hqt⟩ := List.mem_map.mp ht
        simpa [← hqt] using not_lt.mpr (hall q hq)
      omega
  · rw [hrpct, ← hrscore]
    have hd := countP_disjoint_le_length (awardScores stats aw)
      (fun t => decide (t < r.score)) (fun t => decide (t = r.score))
      (by
        intro t ⟨h1, h2⟩
        simp only [decide_eq_true_eq] at h1 h2
        exact absurd (h2 ▸ h1) (lt_irrefl r.score))
    have hlen : 1 ≤ (awardScores stats aw).length :=
      List.length_pos.mpr (List.ne_nil_of_mem hsmem)
    set a := (awardScores stats aw).countP fun t => decide (t < r.score) with ha
    set b := (awardScores stats aw).countP fun t => decide (t = r.score) with hb
    set n := (awardScores stats aw).length with hn
    have hb1 : (1 : ℚ) ≤ (b : ℚ) := by exact_mod_cast hone
    have hab : (a : ℚ) + (b : ℚ) ≤ (n : ℚ) := by exact_mod_cast hd
    have hn0 : (0 : ℚ) < (n : ℚ) := by exact_mod_cast hlen
    constructor
    · apply mul_nonneg (by norm_num)
      apply div_nonneg _ (le_of_lt hn0)
      have : (0 : ℚ) ≤ (a : ℚ) := Nat.cast_nonneg a
      linarith
    · have hnum : (a : ℚ) + ((b : ℚ) + 1) / 2 ≤ (n : ℚ) := by linarith
      have hdiv : ((a : ℚ) + ((b : ℚ) + 1) / 2) / (n : ℚ) ≤ 1 :=
        (div_le_one hn0).mpr hnum
      linarith

/-- C6 witness: the bounds applied to a concrete three-row population. -/
theorem award_rank_into_range_and_percentile_bounds_w :
    (1 ≤ (mkAwardRow tieAward (awardScores tieStats tieAward)
        tieStats.headI).rank) ∧
    (0 ≤ (mkAwardRow tieAward (awardScores tieStats tieAward)
        tieStats.headI).percentile ∧
      (mkAwardRow tieAward (awardScores tieStats tieAward)
        tieStats.headI).percentile ≤ 100) := by
  have h := award_rank_into_range_and_percentile_bounds tieStats tieAward
    (mkAwardRow tieAward (awardScores tieStats tieAward) tieStats.headI)
    (mkAwardRow tieAward (awardScores tieStats tieAward) tieStats.headI)
    (by decide) (by decide)
  exact ⟨h.1.1, h.2.2.2.2.2⟩

/-- C5 counterexample: on a population with scores (1/2, 1/2, 1) the code's
`rank(pct=True)` (method="average") reports percentile 50 for each tied
player, while the claim's fraction-at-or-below formula gives
100 × (2/3) = 200/3 ≠ 50. -/
theorem award_percentile_tie_counterexample :
    ((compute_award_scores tieStats [tieAward]).map fun q => q.percentile) =
      [50, 50, 100] ∧
    ((compute_award_scores tieStats [tieAward]).countP
      fun q => decide (q.score ≤ 1/2)) = 2 ∧
    (compute_award_scores tieStats [tieAward]).length = 3 ∧
    (100 : ℚ) * (2 / 3) = 200 / 3 ∧ (50 : ℚ) ≠ 200 / 3 := by decide

/-- C5 (amended): the reported percentile is the pandas average-rank
percentile — 100 × ((count of strictly smaller scores) + (count of tied
scores + 1)/2) / N over the filtered population — which coincides with the
claim's 100 × (fraction of scores at or below the player's score) exactly
when the player's score is untied. -/
theorem award_percentile_is_average_rank (stats : List StatsRow) (aw : Award)
    (r : AwardScoreRow) (hr : r ∈ awardRows stats aw) :
    r.percentile = 100 *
      ((((awardRows stats aw).countP fun q => decide (q.score < r.score) : ℚ) +
        (((awardRows stats aw).countP fun q => decide (q.score = r.score) : ℚ) + 1) / 2) /
        ((awardRows stats aw).length : ℚ)) ∧
    (((awardRows stats aw).countP fun q => decide (q.score = r.score)) = 1 →
      r.percentile = 100 *
        (((awardRows stats aw).countP fun q => decide (q.score ≤ r.score) : ℚ) /
          ((awardRows stats aw).length : ℚ))) := by
  obtain ⟨hcol, x, hx, hrx⟩ := mem_awardRows hr
  have hrscore : r.score = (colVal x aw.metric).getD 0 := by rw [hrx]; rfl
  have hrpct : r.percentile = 100 *
      ((((awardScores stats aw).countP
          fun t => decide (t < (colVal x aw.metric).getD 0) : ℚ) +
        (((awardScores stats aw).countP
          fun t => decide (t = (colVal x aw.metric).getD 0) : ℚ) + 1) / 2) /
        ((awardScores stats aw).length : ℚ)) := by rw [hrx]; rfl
  have h1 := countP_awardRows_score hcol fun t => decide (t < r.score)
  have h2 := countP_awardRows_score hcol fun t => decide (t = r.score)
  have h3 := countP_awardRows_score hcol fun t => decide (t ≤ r.score)
  have hlen := length_awardRows hcol
  constructor
  · rw [h1, h2, hlen, hrscore, hrpct]
  · intro hone
    rw [h2] at hone
    rw [hrscore] at hone
    rw [h3, hlen, hrscore, countP_le_split, hrpct, hone]
    push_cast
    ring

/-- C5 witness: the average-rank percentile formula evaluated on the
concrete tied population's first row. -/
theorem award_percentile_is_average_rank_w :
    tieTopRow.percentile = 100 *
      ((((awardRows tieStats tieAward).countP
          fun q => decide (q.score < tieTopRow.score) : ℚ) +
        (((awardRows tieStats tieAward).countP
          fun q => decide (q.score = tieTopRow.score) : ℚ) + 1) / 2) /
        ((awardRows tieStats tieAward).length : ℚ)) :=
  (award_percentile_is_average_rank tieStats tieAward tieTopRow (by decide)).1

/-! ### C7: minimum-attempts filtering -/

/-- C7: an award keeps exactly the players whose value in its configured
denominator column is at least min_attempts — the filter is skipped
entirely when that column is absent from the stats table — and on the
spec's concrete scenario player 1 (5 tackles, 2 failed) survives the
min_attempts = 5 filter with score 2/5 while player 2 (3 tackles) is
excluded. -/
theorem award_min_attempts_filter (stats : List StatsRow) (aw : Award)
    (ac : String) (r : StatsRow) (hac : attempt_cols aw.metric = some ac) :
    (colPresent stats ac = true →
      (r ∈ awardFiltered stats aw ↔
        r ∈ stats ∧ ∃ v, colVal r ac = some v ∧ aw.min_attempts ≤ v)) ∧
    (colPresent stats ac = false → awardFiltered stats aw = stats) ∧
    (colPresent stats aw.metric = true →
      (awardRows stats aw).map (fun q => q.player_id) =
      (awardFiltered stats aw).map fun q => q.player_id) ∧
    (((compute_award_scores tackleStats [tackleAward]).countP
        fun q => q.player_id == 1) = 1 ∧
      ((compute_award_scores tackleStats [tackleAward]).find?
        fun q => q.player_id == 1).map (fun q => q.score) = some (2/5) ∧
      ((compute_award_scores tackleStats [tackleAward]).countP
        fun q => q.player_id == 2) = 0) := by
  refine ⟨?_, ?_, ?_, by decide⟩
  · intro hp
    unfold awardFiltered
    rw [hac]
    dsimp only
    rw [if_pos hp, List.mem_filter]
    constructor
    · rintro ⟨hmem, hpass⟩
      refine ⟨hmem, ?_⟩
      unfold passesFilter at hpass
      cases hcv : colVal r ac with
      | none => rw [hcv] at hpass; cases hpass
      | some v =>
        rw [hcv] at hpass
        exact ⟨v, rfl, by simpa using hpass⟩
    · rintro ⟨hmem, v, hv, hle⟩
      refine ⟨hmem, ?_⟩
      unfold passesFilter
      rw [hv]
      simpa using hle
  · intro hp
    unfold awardFiltered
    rw [hac]
    dsimp only
    rw [if_neg (by simp [hp])]
  · intro hp
    rw [awardRows_eq hp, List.map_map]
    rfl

/-- C7 witness: the filter characterization and the concrete scenario,
discharged at the scenario's own stats table and award. -/
theorem award_min_attempts_filter_w :
    ((compute_award_scores tackleStats [tackleAward]).countP
      fun q => q.player_id == 1) = 1 :=
  (award_min_attempts_filter tackleStats tackleAward "tackle_attempt"
    zeroDenRow rfl).2.2.2.1

end KIgnobel
